import Mathlib

/-!
# Verification of the Savings-Tracker Plan Accounting & Scheduling Engine

Shallow embedding of the engine found in `src/unnamed/part_000` (the newer of the
two near-duplicate implementations; the older copy starting at line 817 is
superseded per the design notes).

Modelling conventions:
* Calendar dates are natural numbers counting days since 1970-01-01.  The source
  stores dates as `YYYY-MM-DD` strings and compares them with `<=` / `localeCompare`;
  for such strings lexicographic order coincides with chronological order, so a
  `Nat` day number with its usual order is a faithful abstraction.  `civilDay`
  converts a civil date to its day number so concrete examples refer to real dates.
* JavaScript's `Date.prototype.getDay` (0 = Sunday, …, 6 = Saturday) becomes
  `getDay d = (d + 4) % 7` since day 0 (1970-01-01) was a Thursday (= 4).
* Monetary amounts are rationals (`ℚ`), the exact-arithmetic idealisation of the
  source's numbers.
* Fields that the source reads with a `|| 0` / `|| []` default are modelled as
  always-present fields of the corresponding type; the defaults make the two
  views coincide.
* `Array.prototype.sort` with the comparator `a.start.localeCompare(b.start)` is a
  stable sort by `start`; `List.insertionSort` by `start` is the same stable sort.
-/

namespace SavingsTracker

/-- An exclusion period `{start, end}` (both bounds inclusive), dates as day numbers. -/
structure Range where
  start : Nat
  «end» : Nat
deriving Repr, DecidableEq

/-- The comparator used by `mergeExclusions`' sort: ascending by `start`. -/
def startLE (a b : Range) : Prop := a.start ≤ b.start

instance : DecidableRel startLE := fun a b => inferInstanceAs (Decidable (a.start ≤ b.start))

instance : IsTotal Range startLE := ⟨fun a b => Nat.le_total a.start b.start⟩

instance : IsTrans Range startLE := ⟨fun _ _ _ h h' => Nat.le_trans h h'⟩

/-- The scan loop of `mergeExclusions` (source lines 42–57): `current` is the
accumulator; an incoming range with `next.start <= current.end` is merged by
extending `current.end` to the max of the two ends, otherwise `current` is
flushed and `next` becomes the accumulator. -/
def mergeGo (current : Range) : List Range → List Range
  | [] => [current]
  | next :: rest =>
    if next.start ≤ current.«end» then
      mergeGo { current with «end» := max current.«end» next.«end» } rest
    else
      current :: mergeGo next rest

/-- `mergeExclusions` (source lines 35–59): sort by `start`, then single merging scan.
Empty input yields `[]`. -/
def mergeExclusions (exclusions : List Range) : List Range :=
  match List.insertionSort startLE exclusions with
  | [] => []
  | c :: rest => mergeGo c rest

/-- `isDateInExclusions` (source lines 61–64): membership of a date in any of the
ranges, both bounds inclusive.  The loop of `countCalculationDays` inlines the
identical test. -/
def isDateInExclusions (date : Nat) (exclusions : List Range) : Bool :=
  exclusions.any fun ex => decide (ex.start ≤ date) && decide (date ≤ ex.«end»)

/-- JavaScript `getDay`: 0 = Sunday, …, 6 = Saturday.  Day 0 (1970-01-01) was a
Thursday, hence the offset 4. -/
def getDay (d : Nat) : Nat := (d + 4) % 7

/-- The weekend test of the counting loop (source line 84): Sunday or Saturday. -/
def isWeekend (d : Nat) : Bool := getDay d == 0 || getDay d == 6

/-- Body of the `while (cur <= last)` loop of `countCalculationDays` (source lines
82–94), with the remaining number of iterations (`last + 1 - cur`) made explicit
as structural fuel: counts the days among `cur, cur+1, …, cur+fuel-1` that are
neither weekend nor inside `mergedEx`. -/
def countDaysGo (mergedEx : List Range) : Nat → Nat → Nat
  | 0, _ => 0
  | fuel + 1, cur =>
    (if !isWeekend cur && !isDateInExclusions cur mergedEx then 1 else 0)
      + countDaysGo mergedEx fuel (cur + 1)

/-- The `while (cur <= last)` loop of `countCalculationDays` (source lines 82–94):
counts the days in `[cur, last]` that are neither weekend nor inside `mergedEx`.
When `cur > last` the fuel `last + 1 - cur` is 0 and the loop body never runs. -/
def countDaysFrom (cur last : Nat) (mergedEx : List Range) : Nat :=
  countDaysGo mergedEx (last + 1 - cur) cur

/-- `countCalculationDays` (source lines 66–96): Monday–Friday days in the
inclusive range `[start, end]` that are not inside the merged exclusions. -/
def countCalculationDays (start «end» : Nat) (exclusions : List Range) : Nat :=
  countDaysFrom start «end» (mergeExclusions exclusions)

/-- Day number (days since 1970-01-01) of a civil date, for `y ≥ 1970`
(Gregorian calendar, standard `days_from_civil` computation). -/
def civilDay (y m d : Nat) : Nat :=
  let y' := if m ≤ 2 then y - 1 else y
  let era := y' / 400
  let yoe := y' % 400
  let mp := (m + 9) % 12
  let doy := (153 * mp + 2) / 5 + d - 1
  let doe := yoe * 365 + yoe / 4 - yoe / 100 + doy
  era * 146097 + doe - 719468

/-- A per-plan history snapshot `{date, totalSaved}` (source lines 208–211). -/
structure PlanHistEntry where
  date : Nat
  totalSaved : ℚ
deriving Repr, DecidableEq

/-- A document-level history snapshot `{date, savings}` (source lines 222–225). -/
structure DocHistEntry where
  date : Nat
  savings : ℚ
deriving Repr, DecidableEq

/-- A savings plan (see the object literal built by `save-new-plan`, source lines
570–578; `products` is out of core scope and omitted — no claim mentions it). -/
structure Plan where
  startDate : Nat
  useEndDate : Bool
  endDate : Nat
  goal : ℚ
  exclusions : List Range
  estimateMode : Bool
  manualSavingsMode : Bool
  penaltyMode : Bool
  dayActive : Bool
  dailyAllowance : ℚ
  dailySpent : ℚ
  dailySavingsGoal : ℚ
  totalSaved : ℚ
  totalSpent : ℚ
  penaltyDebt : ℚ
  history : List PlanHistEntry
deriving Repr, DecidableEq

/-- `calculateRequiredDaily` (source lines 98–141).  The source reads the clock
(`getManilaDate`); here `today` is an explicit parameter.  `!plan.goal` is the
test `goal = 0`, `today > end` is `endDate < today`, and `daysLeft <= 0` is
`daysLeft = 0` on `Nat`. -/
def calculateRequiredDaily (plan : Plan) (allowance : ℚ) (today : Nat) : ℚ :=
  if isDateInExclusions today plan.exclusions then 0
  else if plan.useEndDate = false then
    if plan.manualSavingsMode = false then allowance * 0.5
    else plan.dailySavingsGoal
  else if plan.goal = 0 then 0
  else if plan.endDate < today then 0
  else
    let daysLeft := countCalculationDays today plan.endDate plan.exclusions
    if daysLeft = 0 then allowance
    else
      let currentSavings := plan.totalSaved
      let remainingNeeded := plan.goal - currentSavings
      let target := max 0 (remainingNeeded / (daysLeft : ℚ))
      let target' :=
        if plan.useEndDate ≠ false ∧ plan.manualSavingsMode = false
            ∧ 80 ≤ allowance ∧ target < 50 then
          target + allowance * 0.20
        else target
      min allowance target'

/-- `refreshPlanTarget` (source lines 16–22): recompute the open day's target
unless the plan is in manual mode. -/
def refreshPlanTarget (plan : Plan) (today : Nat) : Plan :=
  if plan.dayActive = false then plan
  else if plan.manualSavingsMode = false then
    { plan with dailySavingsGoal := calculateRequiredDaily plan plan.dailyAllowance today }
  else plan

/-- The `toggle-estimate` onchange handler (source lines 601–614): set
`estimateMode` from the checkbox; if it is now on, force `manualSavingsMode` off;
then refresh the target. -/
def toggleEstimate (plan : Plan) (checked : Bool) (today : Nat) : Plan :=
  let p1 := { plan with estimateMode := checked }
  let p2 := if p1.estimateMode then { p1 with manualSavingsMode := false } else p1
  refreshPlanTarget p2 today

/-- The `toggle-manual` onchange handler (source lines 615–628): set
`manualSavingsMode` from the checkbox; if on, force `estimateMode` off, otherwise
force `estimateMode` on; then refresh the target. -/
def toggleManual (plan : Plan) (checked : Bool) (today : Nat) : Plan :=
  let p1 := { plan with manualSavingsMode := checked }
  let p2 :=
    if p1.manualSavingsMode then { p1 with estimateMode := false }
    else { p1 with estimateMode := true }
  refreshPlanTarget p2 today

/-- The `start-day-btn` onclick handler (source lines 645–666), after the
empty-input guard: `allowance` and `manualInput` are the parsed inputs.  The
handler unconditionally opens (or re-opens) the day. -/
def startDay (plan : Plan) (allowance manualInput : ℚ) (today : Nat) : Plan :=
  let target : ℚ :=
    if plan.manualSavingsMode then manualInput
    else if plan.estimateMode then calculateRequiredDaily plan allowance today
    else 0
  { plan with
      dayActive := true
      dailyAllowance := allowance
      dailySavingsGoal := target
      dailySpent := 0 }

/-- The persisted document root (see `Store.load` defaults and the state
initialisation at source lines 4–13; `tosAgreed` is outside core scope). -/
structure DocState where
  plans : List Plan
  totalSavings : ℚ
  history : List DocHistEntry
  lastLoginDate : Nat
deriving Repr, DecidableEq

/-- The history insertion idiom of `checkDailyReset` (source lines 208–212 and
222–226): `push` then `shift` once when the length exceeds 30. -/
def pushCapped {α : Type} (h : List α) (e : α) : List α :=
  let h' := h ++ [e]
  if h'.length > 30 then h'.tail else h'

/-- The per-plan body of the rollover `forEach` (source lines 189–219): close an
open plan's day, accruing penalty debt and totals and appending to the plan's
history; plans with no open day are untouched.  `lastLogin` is the document's
`lastLoginDate` at entry (the source's `state.lastLoginDate || todayStr`,
always present here). -/
def rolloverPlan (lastLogin : Nat) (plan : Plan) : Plan :=
  if plan.dayActive then
    let actualSavings := plan.dailyAllowance - plan.dailySpent
    let target := plan.dailySavingsGoal
    let penaltyDebt' :=
      if plan.penaltyMode = true ∧ (plan.estimateMode = true ∨ plan.manualSavingsMode = true)
          ∧ actualSavings < target then
        plan.penaltyDebt + (target - actualSavings)
      else plan.penaltyDebt
    let totalSaved' := plan.totalSaved + actualSavings
    { plan with
        penaltyDebt := penaltyDebt'
        totalSaved := totalSaved'
        totalSpent := plan.totalSpent + plan.dailySpent
        history := pushCapped plan.history ⟨lastLogin, totalSaved'⟩
        dayActive := false
        dailyAllowance := 0
        dailySpent := 0
        dailySavingsGoal := 0 }
  else plan

/-- The day's actual savings contributed to `state.totalSavings` by one plan
inside the rollover `forEach` (source line 202); 0 for a plan with no open day. -/
def planDaySavings (plan : Plan) : ℚ :=
  if plan.dayActive then plan.dailyAllowance - plan.dailySpent else 0

/-- `checkDailyReset` (source lines 185–231).  The source reads the clock
(`getTodayStr`); here `today` is an explicit parameter.  The `forEach` both
rewrites each plan and accumulates into `state.totalSavings`; the accumulation
is rendered as a `foldl` over the plans. -/
def checkDailyReset (s : DocState) (today : Nat) : DocState :=
  if s.lastLoginDate = today then s
  else
    let plans' := s.plans.map (rolloverPlan s.lastLoginDate)
    let totalSavings' := s.plans.foldl (fun acc p => acc + planDaySavings p) s.totalSavings
    let history' := pushCapped s.history ⟨s.lastLoginDate, totalSavings'⟩
    { s with
        plans := plans'
        totalSavings := totalSavings'
        history := history'
        lastLoginDate := today }

/-- A document with no plans and empty history, `lastLoginDate` at day 0. -/
def emptyDoc : DocState :=
  { plans := [], totalSavings := 0, history := [], lastLoginDate := 0 }

/-- `n` sequential rollovers on consecutive fresh days `1, 2, …, n`. -/
def iterRollovers (s : DocState) (n : Nat) : DocState :=
  (List.range n).foldl (fun st i => checkDailyReset st (i + 1)) s

/-- Two merged ranges are separated: the first ends strictly before the second
starts (on inclusive date ranges this is exactly "cannot be merged further"). -/
def Gap (a b : Range) : Prop := a.«end» < b.start

/-- `d` lies inside the inclusive range `r`. -/
def covers (r : Range) (d : Nat) : Prop := r.start ≤ d ∧ d ≤ r.«end»

/-- The spec's description of `countQualifyingDays` (§4.2): the number of days
`d` with `start ≤ d ≤ end` whose weekday is Monday–Friday and which lie in no
(raw, unmerged) exclusion range. -/
def countQualifyingDaysSpec (start «end» : Nat) (exclusions : List Range) : Nat :=
  ((List.range' start («end» + 1 - start)).filter
    (fun d => !isWeekend d && !isDateInExclusions d exclusions)).length

theorem isDateInExclusions_eq_true_iff (d : Nat) (l : List Range) :
    isDateInExclusions d l = true ↔ ∃ r ∈ l, covers r d := by
  simp [isDateInExclusions, covers, List.any_eq_true]

theorem mergeGo_head (rest : List Range) (current : Range) :
    ∃ e t, mergeGo current rest = ⟨current.start, e⟩ :: t := by
  induction rest generalizing current with
  | nil => exact ⟨current.«end», [], rfl⟩
  | cons next rest ih =>
    by_cases hle : next.start ≤ current.«end»
    · obtain ⟨e, t, ht⟩ := ih { current with «end» := max current.«end» next.«end» }
      exact ⟨e, t, by simpa [mergeGo, hle] using ht⟩
    · exact ⟨current.«end», mergeGo next rest, by simp [mergeGo, hle]⟩

theorem mergeGo_spec (rest : List Range) (current : Range)
    (h : List.Pairwise startLE (current :: rest)) :
    List.Chain' Gap (mergeGo current rest)
      ∧ List.Pairwise startLE (mergeGo current rest)
      ∧ ∀ r ∈ mergeGo current rest, current.start ≤ r.start := by
  induction rest generalizing current with
  | nil =>
    refine ⟨List.chain'_singleton _, List.pairwise_singleton _ _, ?_⟩
    intro r hr
    simp only [mergeGo, List.mem_singleton] at hr
    exact hr ▸ le_refl _
  | cons next rest ih =>
    have hcn : startLE current next :=
      (List.pairwise_cons.mp h).1 next (List.mem_cons_self _ _)
    have hcr : ∀ r ∈ rest, current.start ≤ r.start := by
      intro r hr
      exact (List.pairwise_cons.mp h).1 r (List.mem_cons_of_mem _ hr)
    have hrest : List.Pairwise startLE (next :: rest) := (List.pairwise_cons.mp h).2
    by_cases hle : next.start ≤ current.«end»
    · have hpw : List.Pairwise startLE
          ({ current with «end» := max current.«end» next.«end» } :: rest) := by
        refine List.pairwise_cons.mpr ⟨?_, hrest.tail⟩
        intro r hr
        exact hcr r hr
      obtain ⟨hch, hpw', hmem⟩ := ih _ hpw
      simp only [mergeGo, hle, if_pos]
      exact ⟨hch, hpw', hmem⟩
    · obtain ⟨hch, hpw, hmem⟩ := ih next hrest
      obtain ⟨e, t, hht⟩ := mergeGo_head rest next
      have hgap : current.«end» < next.start := Nat.lt_of_not_le hle
      refine ⟨?_, ?_, ?_⟩
      · simp only [mergeGo, hle, if_neg, ite_false]
        rw [hht]
        rw [hht] at hch
        exact List.chain'_cons.mpr ⟨hgap, hch⟩
      · simp only [mergeGo, hle, if_neg, ite_false]
        refine List.pairwise_cons.mpr ⟨?_, hpw⟩
        intro r hr
        exact le_trans hcn (hmem r hr)
      · intro r hr
        simp only [mergeGo, hle, if_neg, ite_false, List.mem_cons] at hr
        rcases hr with rfl | hr
        · exact le_refl _
        · exact le_trans hcn (hmem r hr)

theorem chain'_gap_pairwise :
    ∀ {l : List Range}, List.Chain' Gap l → List.Pairwise startLE l →
      List.Pairwise Gap l
  | [], _, _ => List.Pairwise.nil
  | [_], _, _ => List.pairwise_singleton _ _
  | a :: b :: t, hch, hpw => by
    have hab : Gap a b := (List.chain'_cons.mp hch).1
    have hpwt : List.Pairwise startLE (b :: t) := (List.pairwise_cons.mp hpw).2
    have htail := chain'_gap_pairwise (List.chain'_cons.mp hch).2 hpwt
    refine List.pairwise_cons.mpr ⟨?_, htail⟩
    intro r hr
    rcases List.mem_cons.mp hr with rfl | hr
    · exact hab
    · have hbr : b.start ≤ r.start := (List.pairwise_cons.mp hpwt).1 r hr
      exact Nat.lt_of_lt_of_le hab hbr

theorem mergeGo_of_gapped :
    ∀ (rest : List Range) (current : Range),
      List.Chain' Gap (current :: rest) → mergeGo current rest = current :: rest
  | [], _, _ => rfl
  | next :: rest, current, hch => by
    have hgap : Gap current next := (List.chain'_cons.mp hch).1
    have hle : ¬ next.start ≤ current.«end» := Nat.not_le_of_lt hgap
    simp only [mergeGo, hle, ite_false, List.cons.injEq, true_and]
    exact mergeGo_of_gapped rest next (List.chain'_cons.mp hch).2

theorem mergeExclusions_sorted_gapped (R : List Range) :
    List.Chain' Gap (mergeExclusions R)
      ∧ List.Pairwise startLE (mergeExclusions R) := by
  unfold mergeExclusions
  have hs : List.Sorted startLE (List.insertionSort startLE R) :=
    List.sorted_insertionSort startLE R
  rcases hins : List.insertionSort startLE R with _ | ⟨c, rest⟩
  · exact ⟨List.chain'_nil, List.Pairwise.nil⟩
  · rw [hins] at hs
    obtain ⟨hch, hpw, _⟩ := mergeGo_spec rest c hs
    exact ⟨hch, hpw⟩

theorem mergeExclusions_of_sorted_gapped (l : List Range)
    (hpw : List.Pairwise startLE l) (hch : List.Chain' Gap l) :
    mergeExclusions l = l := by
  have hsorted : List.insertionSort startLE l = l :=
    List.Sorted.insertionSort_eq hpw
  unfold mergeExclusions
  rw [hsorted]
  cases l with
  | nil => rfl
  | cons c rest => exact mergeGo_of_gapped rest c hch

theorem mergeExclusions_idem (R : List Range) :
    mergeExclusions (mergeExclusions R) = mergeExclusions R :=
  mergeExclusions_of_sorted_gapped _ (mergeExclusions_sorted_gapped R).2
    (mergeExclusions_sorted_gapped R).1

theorem covers_merge_range {current next : Range} (d : Nat)
    (hle : next.start ≤ current.«end») (hcn : current.start ≤ next.start) :
    covers { current with «end» := max current.«end» next.«end» } d
      ↔ covers current d ∨ covers next d := by
  simp only [covers]
  omega

theorem mergeGo_covers (d : Nat) (rest : List Range) (current : Range)
    (h : List.Pairwise startLE (current :: rest)) :
    (∃ r ∈ mergeGo current rest, covers r d)
      ↔ covers current d ∨ ∃ r ∈ rest, covers r d := by
  induction rest generalizing current with
  | nil => simp [mergeGo]
  | cons next rest ih =>
    have hcn : startLE current next :=
      (List.pairwise_cons.mp h).1 next (List.mem_cons_self _ _)
    have hcr : ∀ r ∈ rest, current.start ≤ r.start := fun r hr =>
      (List.pairwise_cons.mp h).1 r (List.mem_cons_of_mem _ hr)
    have hrest : List.Pairwise startLE (next :: rest) := (List.pairwise_cons.mp h).2
    by_cases hle : next.start ≤ current.«end»
    · have hpw : List.Pairwise startLE
          ({ current with «end» := max current.«end» next.«end» } :: rest) :=
        List.pairwise_cons.mpr ⟨fun r hr => hcr r hr, (List.pairwise_cons.mp hrest).2⟩
      simp only [mergeGo, hle, if_pos]
      rw [ih _ hpw, covers_merge_range d hle hcn,
        List.exists_mem_cons_iff (fun r => covers r d) next rest, or_assoc]
    · simp only [mergeGo, hle, ite_false]
      rw [List.exists_mem_cons_iff (fun r => covers r d) current (mergeGo next rest),
        ih next hrest, List.exists_mem_cons_iff (fun r => covers r d) next rest]

theorem mergeExclusions_covers (d : Nat) (R : List Range) :
    (∃ r ∈ mergeExclusions R, covers r d) ↔ ∃ r ∈ R, covers r d := by
  unfold mergeExclusions
  have hs : List.Sorted startLE (List.insertionSort startLE R) :=
    List.sorted_insertionSort startLE R
  have hmem : ∀ r : Range, r ∈ List.insertionSort startLE R ↔ r ∈ R := fun r =>
    List.mem_insertionSort startLE
  rcases hins : List.insertionSort startLE R with _ | ⟨c, rest⟩
  · simp only [List.not_mem_nil, false_and, exists_false, false_iff]
    rintro ⟨r, hr, _⟩
    have : r ∈ List.insertionSort startLE R := (hmem r).mpr hr
    rw [hins] at this
    exact absurd this (List.not_mem_nil r)
  · rw [hins] at hs
    rw [mergeGo_covers d rest c hs]
    constructor
    · rintro (hc | ⟨r, hr, hcov⟩)
      · exact ⟨c, (hmem c).mp (hins ▸ List.mem_cons_self _ _), hc⟩
      · exact ⟨r, (hmem r).mp (hins ▸ List.mem_cons_of_mem _ hr), hcov⟩
    · rintro ⟨r, hr, hcov⟩
      have : r ∈ c :: rest := hins ▸ (hmem r).mpr hr
      rcases List.mem_cons.mp this with rfl | hr'
      · exact Or.inl hcov
      · exact Or.inr ⟨r, hr', hcov⟩

theorem isDateInExclusions_mergeExclusions (d : Nat) (R : List Range) :
    isDateInExclusions d (mergeExclusions R) = isDateInExclusions d R := by
  rcases hb : isDateInExclusions d R with _ | _
  · rw [Bool.eq_false_iff]
    intro hcontra
    have h1 := (isDateInExclusions_eq_true_iff d (mergeExclusions R)).mp hcontra
    have h2 := (mergeExclusions_covers d R).mp h1
    have := (isDateInExclusions_eq_true_iff d R).mpr h2
    rw [hb] at this
    exact Bool.false_ne_true this
  · exact (isDateInExclusions_eq_true_iff d (mergeExclusions R)).mpr
      ((mergeExclusions_covers d R).mpr ((isDateInExclusions_eq_true_iff d R).mp hb))

theorem countDaysGo_eq_filter (ex : List Range) :
    ∀ (fuel cur : Nat),
      countDaysGo ex fuel cur =
        ((List.range' cur fuel).filter
          (fun d => !isWeekend d && !isDateInExclusions d ex)).length
  | 0, _ => rfl
  | fuel + 1, cur => by
    rw [List.range'_succ, List.filter_cons]
    rcases hq : (!isWeekend cur && !isDateInExclusions cur ex) with _ | _
    · simp only [countDaysGo, hq, ite_false, if_false, List.length]
      rw [countDaysGo_eq_filter ex fuel (cur + 1)]
      simp
    · simp only [countDaysGo, hq, ite_true, if_true, List.length_cons]
      rw [countDaysGo_eq_filter ex fuel (cur + 1)]
      omega

theorem countCalculationDays_eq_spec (start «end» : Nat) (exclusions : List Range) :
    countCalculationDays start «end» exclusions =
      countQualifyingDaysSpec start «end» exclusions := by
  unfold countCalculationDays countDaysFrom countQualifyingDaysSpec
  rw [countDaysGo_eq_filter]
  refine congrArg List.length (List.filter_congr ?_)
  intro d _
  rw [isDateInExclusions_mergeExclusions]

theorem pushCapped_length_le {α : Type} (h : List α) (e : α) (hlen : h.length ≤ 30) :
    (pushCapped h e).length ≤ 30 := by
  unfold pushCapped
  by_cases hc : (h ++ [e]).length > 30
  · simp only [hc, ite_true]
    rw [List.length_tail]
    simp only [List.length_append, List.length_singleton]
    omega
  · simp only [hc, ite_false]
    simp only [List.length_append, List.length_singleton] at hc ⊢
    omega

theorem pushCapped_eq {α : Type} (h : List α) (e : α) (hlen : h.length ≤ 30) :
    pushCapped h e = (if h.length < 30 then h else h.tail) ++ [e] := by
  unfold pushCapped
  by_cases hc : h.length < 30
  · have hgt : ¬ (h ++ [e]).length > 30 := by
      simp only [List.length_append, List.length_singleton]
      omega
    rw [if_neg hgt, if_pos hc]
  · have h30 : h.length = 30 := by omega
    have hgt : (h ++ [e]).length > 30 := by
      simp only [List.length_append, List.length_singleton]
      omega
    rw [if_pos hgt, if_neg hc]
    rcases h with _ | ⟨x, t⟩
    · simp at h30
    · rfl

theorem foldl_planDaySavings (l : List Plan) :
    ∀ a : ℚ, l.foldl (fun acc p => acc + planDaySavings p) a
      = a + (l.map planDaySavings).sum := by
  induction l with
  | nil => intro a; simp
  | cons p t ih =>
    intro a
    simp only [List.foldl_cons, List.map_cons, List.sum_cons]
    rw [ih (a + planDaySavings p)]
    ring

/-- Exactly one of the two mode flags is set (the spec's stated invariant). -/
def ExactlyOneMode (p : Plan) : Prop := p.estimateMode ≠ p.manualSavingsMode

instance : DecidablePred ExactlyOneMode := fun p =>
  inferInstanceAs (Decidable (p.estimateMode ≠ p.manualSavingsMode))

theorem refreshPlanTarget_estimateMode (p : Plan) (today : Nat) :
    (refreshPlanTarget p today).estimateMode = p.estimateMode := by
  unfold refreshPlanTarget
  split_ifs <;> rfl

theorem refreshPlanTarget_manualSavingsMode (p : Plan) (today : Nat) :
    (refreshPlanTarget p today).manualSavingsMode = p.manualSavingsMode := by
  unfold refreshPlanTarget
  split_ifs <;> rfl

/-- A freshly created plan, with the defaults of the `save-new-plan` handler
(source lines 570–578): `estimateMode` on, `manualSavingsMode` off,
`penaltyMode` on, day closed, all accumulators zero. -/
def basePlan : Plan :=
  { startDate := 0, useEndDate := true, endDate := 0, goal := 0, exclusions := [],
    estimateMode := true, manualSavingsMode := false, penaltyMode := true,
    dayActive := false, dailyAllowance := 0, dailySpent := 0, dailySavingsGoal := 0,
    totalSaved := 0, totalSpent := 0, penaltyDebt := 0, history := [] }

/-- An indefinite-mode plan in manual mode whose stored manual target (500)
exceeds a 100 allowance. -/
def indefManualPlan : Plan :=
  { basePlan with useEndDate := false, estimateMode := false,
                  manualSavingsMode := true, dailySavingsGoal := 500 }

/-- The rollover example plan of the spec (§8): open day with allowance 100,
spent 30, target 80, penalty mode on (and, per the mode invariant, estimate
mode on). -/
def closeExamplePlan : Plan :=
  { basePlan with dayActive := true, dailyAllowance := 100, dailySpent := 30,
                  dailySavingsGoal := 80 }

/-- A one-plan document the day before rollover closes `closeExamplePlan`. -/
def exampleDoc : DocState :=
  { plans := [closeExamplePlan], totalSavings := 0, history := [], lastLoginDate := 5 }

/-- The surcharge example plan of the spec (§8): goal 10000, saved 9900, fixed
end date 2024-01-12 (so that from 2024-01-01 there are 10 working days left). -/
def surchargePlan : Plan :=
  { basePlan with goal := 10000, totalSaved := 9900, endDate := civilDay 2024 1 12 }

/-- A plan with a single exclusion window covering days 0–5. -/
def exclusionPlan : Plan :=
  { basePlan with exclusions := [⟨0, 5⟩] }

/-- C1 (counterexample): the claim "`dailyTarget` never exceeds `todayAllowance`
in every mode, including indefinite/manual mode" is false: for an
indefinite-mode manual plan whose stored manual value is 500,
`calculateRequiredDaily` returns 500 on an allowance of 100, exceeding it. -/
theorem C1_counterexample :
    (0 : ℚ) ≤ 100
      ∧ calculateRequiredDaily indefManualPlan 100 0 = 500
      ∧ ¬ calculateRequiredDaily indefManualPlan 100 0 ≤ 100 := by
  refine ⟨by norm_num, by decide, by decide⟩

/-- C1 (amended): for every plan and allowance ≥ 0, `calculateRequiredDaily`
returns an amount in `[0, allowance]` in every mode EXCEPT the
indefinite (`useEndDate = false`) manual mode, where the result is the stored
manual value `dailySavingsGoal` (0 outside exclusions only if unset), uncapped. -/
theorem C1_target_bounds_amended (plan : Plan) (allowance : ℚ) (today : Nat)
    (h0 : 0 ≤ allowance) :
    (¬ (plan.useEndDate = false ∧ plan.manualSavingsMode = true) →
      0 ≤ calculateRequiredDaily plan allowance today
        ∧ calculateRequiredDaily plan allowance today ≤ allowance)
    ∧ (plan.useEndDate = false → plan.manualSavingsMode = true →
      calculateRequiredDaily plan allowance today =
        if isDateInExclusions today plan.exclusions then 0
        else plan.dailySavingsGoal) := by
  constructor
  · intro hnm
    unfold calculateRequiredDaily
    by_cases hex : isDateInExclusions today plan.exclusions = true
    · rw [if_pos hex]
      exact ⟨le_refl 0, h0⟩
    · rw [if_neg hex]
      by_cases hind : plan.useEndDate = false
      · rw [if_pos hind]
        have hman : plan.manualSavingsMode = false := by
          cases hm : plan.manualSavingsMode
          · rfl
          · exact absurd ⟨hind, hm⟩ hnm
        rw [if_pos hman]
        constructor
        · nlinarith
        · nlinarith
      · rw [if_neg hind]
        by_cases hgoal : plan.goal = 0
        · rw [if_pos hgoal]
          exact ⟨le_refl 0, h0⟩
        · rw [if_neg hgoal]
          by_cases hlate : plan.endDate < today
          · rw [if_pos hlate]
            exact ⟨le_refl 0, h0⟩
          · rw [if_neg hlate]
            simp only
            by_cases hdays : countCalculationDays today plan.endDate plan.exclusions = 0
            · rw [if_pos hdays]
              exact ⟨h0, le_refl allowance⟩
            · rw [if_neg hdays]
              have ht0 : (0 : ℚ) ≤ max 0 ((plan.goal - plan.totalSaved)
                  / (countCalculationDays today plan.endDate plan.exclusions : ℚ)) :=
                le_max_left 0 _
              split_ifs with hs
              · refine ⟨le_min h0 ?_, min_le_left _ _⟩
                have : (0 : ℚ) ≤ allowance * 0.20 := by nlinarith
                linarith
              · exact ⟨le_min h0 ht0, min_le_left _ _⟩
  · intro hind hman
    unfold calculateRequiredDaily
    by_cases hex : isDateInExclusions today plan.exclusions = true
    · rw [if_pos hex, if_pos hex]
    · rw [if_neg hex, if_neg hex, if_pos hind, if_neg (by simp [hman])]

/-- Witness for C1: the amended bounds at a concrete fixed-end-date plan. -/
theorem C1_target_bounds_witness :
    0 ≤ calculateRequiredDaily basePlan 100 0
      ∧ calculateRequiredDaily basePlan 100 0 ≤ 100 :=
  (C1_target_bounds_amended basePlan 100 0 (by norm_num)).1 (by decide)

/-- C2 (counterexample): the exactly-one-mode invariant is NOT preserved by every
mode-toggle operation: unchecking the estimate toggle on a fresh (estimate-only)
plan leaves BOTH flags false. -/
theorem C2_counterexample :
    ExactlyOneMode basePlan
      ∧ ¬ ExactlyOneMode (toggleEstimate basePlan false 0) := by
  constructor
  · decide
  · decide

/-- C2 (amended): the exactly-one invariant is preserved by the manual toggle in
both directions and by checking the estimate toggle; unchecking the estimate
toggle preserves it only when manual mode is on (from the estimate-only state it
produces the both-false state, see the counterexample). -/
theorem C2_mode_toggle_amended (p : Plan) (checked : Bool) (today : Nat)
    (h : ExactlyOneMode p) :
    ExactlyOneMode (toggleManual p checked today)
      ∧ ExactlyOneMode (toggleEstimate p true today)
      ∧ (p.manualSavingsMode = true → ExactlyOneMode (toggleEstimate p checked today)) := by
  unfold ExactlyOneMode toggleManual toggleEstimate at *
  refine ⟨?_, ?_, ?_⟩
  · cases checked <;>
      simp [refreshPlanTarget_estimateMode, refreshPlanTarget_manualSavingsMode]
  · simp [refreshPlanTarget_estimateMode, refreshPlanTarget_manualSavingsMode]
  · intro hman
    cases checked <;>
      simp [refreshPlanTarget_estimateMode, refreshPlanTarget_manualSavingsMode, hman]

/-- Witness for C2: the amended invariant-preservation at a fresh plan. -/
theorem C2_mode_toggle_witness :
    ExactlyOneMode (toggleManual basePlan true 0)
      ∧ ExactlyOneMode (toggleEstimate basePlan true 0) :=
  ⟨(C2_mode_toggle_amended basePlan true 0 (by decide)).1,
   (C2_mode_toggle_amended basePlan true 0 (by decide)).2.1⟩

/-- C7: if today lies inside one of the plan's exclusion ranges,
`calculateRequiredDaily` returns 0 regardless of mode flags, end-date setting,
or goal. -/
theorem C7_exclusion_zero_target (plan : Plan) (allowance : ℚ) (today : Nat)
    (h : isDateInExclusions today plan.exclusions = true) :
    calculateRequiredDaily plan allowance today = 0 := by
  unfold calculateRequiredDaily
  rw [if_pos h]

/-- Witness for C7: a plan excluding days 0–5 yields target 0 on day 3. -/
theorem C7_exclusion_witness : calculateRequiredDaily exclusionPlan 100 3 = 0 :=
  C7_exclusion_zero_target exclusionPlan 100 3 (by decide)

/-- C3: when rollover fires (stored date differs from today), every plan is
rewritten by `rolloverPlan` and document `totalSavings` grows by the sum of the
open plans' actual savings; closing an open plan computes
`actualSavings = dailyAllowance - dailySpent`, accrues
`penaltyDebt += dailySavingsGoal - actualSavings` exactly when penalty mode is
on AND (estimate or manual mode is on) AND `actualSavings < dailySavingsGoal`,
adds `actualSavings` to `totalSaved` and `dailySpent` to `totalSpent`, and
zeroes the day fields; in particular the 100/30/80 penalty example yields
debt +10, saved +70 and a closed day. -/
theorem C3_rollover_accounting (s : DocState) (today : Nat)
    (h : s.lastLoginDate ≠ today) :
    (checkDailyReset s today).plans = s.plans.map (rolloverPlan s.lastLoginDate)
    ∧ (checkDailyReset s today).totalSavings
        = s.totalSavings + (s.plans.map planDaySavings).sum
    ∧ (∀ (L : Nat) (p : Plan), p.dayActive = true →
        planDaySavings p = p.dailyAllowance - p.dailySpent
        ∧ (rolloverPlan L p).penaltyDebt =
            (if p.penaltyMode = true
                ∧ (p.estimateMode = true ∨ p.manualSavingsMode = true)
                ∧ p.dailyAllowance - p.dailySpent < p.dailySavingsGoal then
              p.penaltyDebt + (p.dailySavingsGoal - (p.dailyAllowance - p.dailySpent))
            else p.penaltyDebt)
        ∧ (rolloverPlan L p).totalSaved = p.totalSaved + (p.dailyAllowance - p.dailySpent)
        ∧ (rolloverPlan L p).totalSpent = p.totalSpent + p.dailySpent
        ∧ (rolloverPlan L p).dayActive = false
        ∧ (rolloverPlan L p).dailyAllowance = 0
        ∧ (rolloverPlan L p).dailySpent = 0
        ∧ (rolloverPlan L p).dailySavingsGoal = 0)
    ∧ ((rolloverPlan 5 closeExamplePlan).penaltyDebt = 10
        ∧ (rolloverPlan 5 closeExamplePlan).totalSaved = 70
        ∧ (checkDailyReset exampleDoc 6).totalSavings = 70
        ∧ (rolloverPlan 5 closeExamplePlan).dayActive = false
        ∧ (rolloverPlan 5 closeExamplePlan).dailyAllowance = 0
        ∧ (rolloverPlan 5 closeExamplePlan).dailySpent = 0
        ∧ (rolloverPlan 5 closeExamplePlan).dailySavingsGoal = 0) := by
  refine ⟨?_, ?_, ?_, ?_⟩
  · simp [checkDailyReset, h]
  · simp [checkDailyReset, h, foldl_planDaySavings]
  · intro L p hp
    simp [rolloverPlan, planDaySavings, hp]
  · refine ⟨?_, ?_, ?_, ?_, ?_, ?_, ?_⟩ <;>
      norm_num [rolloverPlan, closeExamplePlan, basePlan, pushCapped,
        checkDailyReset, exampleDoc, planDaySavings]

/-- Witness for C3: the accounting equations at the concrete one-plan document. -/
theorem C3_rollover_witness :
    (checkDailyReset exampleDoc 6).totalSavings
      = exampleDoc.totalSavings + (exampleDoc.plans.map planDaySavings).sum :=
  (C3_rollover_accounting exampleDoc 6 (by decide)).2.1

/-- C4: rollover is idempotent per calendar day: a second invocation with the
same today (the stored date now equals today) changes no plan and no document
field; equivalently, when `lastLoginDate` already equals today the call is the
identity. -/
theorem C4_rollover_idempotent (s : DocState) (today : Nat) :
    checkDailyReset (checkDailyReset s today) today = checkDailyReset s today
    ∧ (s.lastLoginDate = today → checkDailyReset s today = s) := by
  by_cases h : s.lastLoginDate = today
  · constructor
    · simp [checkDailyReset, h]
    · intro _
      simp [checkDailyReset, h]
  · constructor
    · simp [checkDailyReset, h]
    · intro h'
      exact absurd h' h

/-- Witness for C4: idempotence at a concrete document. -/
theorem C4_idempotent_witness :
    checkDailyReset (checkDailyReset exampleDoc 6) 6 = checkDailyReset exampleDoc 6 :=
  (C4_rollover_idempotent exampleDoc 6).1

theorem rolloverPlan_history_length (L : Nat) (p : Plan)
    (hp : p.history.length ≤ 30) : (rolloverPlan L p).history.length ≤ 30 := by
  unfold rolloverPlan
  split_ifs with hd
  · exact pushCapped_length_le _ _ hp
  · exact hp

set_option maxRecDepth 8000 in
/-- C5: starting from histories of at most 30 entries, rollover keeps both the
document history and every plan history at ≤ 30 entries; when it fires it
appends exactly one entry at the back, evicting the front entry exactly when
the list was full; and 40 sequential rollovers from an empty document leave a
history of exactly 30 entries, the 30 most recent ones in order. -/
theorem C5_history_bound (s : DocState) (today : Nat)
    (hdoc : s.history.length ≤ 30)
    (hpl : ∀ p ∈ s.plans, p.history.length ≤ 30) :
    ((checkDailyReset s today).history.length ≤ 30
      ∧ ∀ p ∈ (checkDailyReset s today).plans, p.history.length ≤ 30)
    ∧ (s.lastLoginDate ≠ today →
        (checkDailyReset s today).history =
          (if s.history.length < 30 then s.history else s.history.tail)
            ++ [⟨s.lastLoginDate, (checkDailyReset s today).totalSavings⟩]
        ∧ ∀ p ∈ s.plans, p.dayActive = true →
            (rolloverPlan s.lastLoginDate p).history =
              (if p.history.length < 30 then p.history else p.history.tail)
                ++ [⟨s.lastLoginDate, p.totalSaved + (p.dailyAllowance - p.dailySpent)⟩])
    ∧ (iterRollovers emptyDoc 40).history.length = 30
    ∧ (iterRollovers emptyDoc 40).history
        = (List.range' 10 30).map (fun d => ⟨d, 0⟩) := by
  refine ⟨?_, ?_, by decide, by decide⟩
  · by_cases h : s.lastLoginDate = today
    · constructor
      · simpa [checkDailyReset, h] using hdoc
      · simpa [checkDailyReset, h] using hpl
    · constructor
      · have : (checkDailyReset s today).history
            = pushCapped s.history ⟨s.lastLoginDate,
                s.plans.foldl (fun acc p => acc + planDaySavings p) s.totalSavings⟩ := by
          simp [checkDailyReset, h]
        rw [this]
        exact pushCapped_length_le _ _ hdoc
      · intro p hp
        have hmem : (checkDailyReset s today).plans
            = s.plans.map (rolloverPlan s.lastLoginDate) := by
          simp [checkDailyReset, h]
        rw [hmem] at hp
        obtain ⟨q, hq, rfl⟩ := List.mem_map.mp hp
        exact rolloverPlan_history_length _ q (hpl q hq)
  · intro h
    constructor
    · have htot : (checkDailyReset s today).totalSavings
          = s.plans.foldl (fun acc p => acc + planDaySavings p) s.totalSavings := by
        simp [checkDailyReset, h]
      have hhist : (checkDailyReset s today).history
          = pushCapped s.history ⟨s.lastLoginDate, (checkDailyReset s today).totalSavings⟩ := by
        rw [htot]
        simp [checkDailyReset, h]
      rw [hhist]
      exact pushCapped_eq _ _ hdoc
    · intro p hp hopen
      unfold rolloverPlan
      rw [if_pos hopen]
      exact pushCapped_eq _ _ (hpl p hp)

/-- Witness for C5: the bound at the concrete one-plan document. -/
theorem C5_history_witness :
    (checkDailyReset exampleDoc 6).history.length ≤ 30 :=
  (C5_history_bound exampleDoc 6 (by decide) (by decide)).1.1

/-- C6: `mergeExclusions` is idempotent, and its output is sorted ascending by
`start` and minimal: consecutive ranges are separated (`end < next start`), so
no two output ranges share a covered day. -/
theorem C6_merge_idempotent_sorted_minimal (R : List Range) :
    mergeExclusions (mergeExclusions R) = mergeExclusions R
    ∧ List.Pairwise startLE (mergeExclusions R)
    ∧ List.Pairwise Gap (mergeExclusions R)
    ∧ List.Pairwise (fun a b => ∀ d, ¬ (covers a d ∧ covers b d)) (mergeExclusions R) := by
  obtain ⟨hch, hpw⟩ := mergeExclusions_sorted_gapped R
  have hgap : List.Pairwise Gap (mergeExclusions R) := chain'_gap_pairwise hch hpw
  refine ⟨mergeExclusions_idem R, hpw, hgap, ?_⟩
  refine hgap.imp ?_
  intro a b hab d hcov
  obtain ⟨⟨_, hda⟩, hbd, _⟩ := hcov
  unfold Gap at hab
  omega

/-- C8: in fixed-end-date non-manual mode with today neither excluded nor past
the end date and at least one qualifying day left, if the allowance is ≥ 80 and
the raw target `max 0 ((goal - totalSaved) / daysLeft)` is below 50, the result
is that raw target plus 20% of the allowance, capped at the allowance; in
particular goal 10000, saved 9900, 10 days left (2024-01-01 to 2024-01-12),
allowance 90 gives 10 + 18 = 28. -/
theorem C8_surcharge_rule (plan : Plan) (allowance : ℚ) (today : Nat)
    (hex : isDateInExclusions today plan.exclusions = false)
    (hend : plan.useEndDate = true)
    (hman : plan.manualSavingsMode = false)
    (hgoal : plan.goal ≠ 0)
    (hlate : ¬ plan.endDate < today)
    (hdays : countCalculationDays today plan.endDate plan.exclusions ≠ 0)
    (hallow : 80 ≤ allowance)
    (hraw : (plan.goal - plan.totalSaved)
        / (countCalculationDays today plan.endDate plan.exclusions : ℚ) < 50) :
    calculateRequiredDaily plan allowance today =
      min allowance
        (max 0 ((plan.goal - plan.totalSaved)
            / (countCalculationDays today plan.endDate plan.exclusions : ℚ))
          + allowance * 0.20)
    ∧ calculateRequiredDaily surchargePlan 90 (civilDay 2024 1 1) = 28 := by
  constructor
  · unfold calculateRequiredDaily
    rw [if_neg (by simp [hex]), if_neg (by simp [hend]), if_neg hgoal, if_neg hlate]
    simp only
    rw [if_neg hdays]
    rw [if_pos]
    refine ⟨by simp [hend], hman, hallow, ?_⟩
    exact max_lt (by norm_num) hraw
  · have hciv1 : civilDay 2024 1 1 = 19723 := by decide
    have hciv12 : civilDay 2024 1 12 = 19734 := by decide
    have h10 : countCalculationDays 19723 19734 ([] : List Range) = 10 := by decide
    have hex' : isDateInExclusions 19723 ([] : List Range) = false := by decide
    rw [hciv1]
    simp only [calculateRequiredDaily, surchargePlan, basePlan, hex', hciv12, h10]
    norm_num [min_def, max_def]

/-- Witness for C8: the surcharge formula applied at the spec's concrete
example. -/
theorem C8_surcharge_witness :
    calculateRequiredDaily surchargePlan 90 (civilDay 2024 1 1) =
      min 90
        (max 0 ((surchargePlan.goal - surchargePlan.totalSaved)
            / (countCalculationDays (civilDay 2024 1 1) surchargePlan.endDate
                surchargePlan.exclusions : ℚ))
          + 90 * 0.20) :=
  (C8_surcharge_rule surchargePlan 90 (civilDay 2024 1 1) (by decide) (by decide)
    (by decide) (by decide) (by decide) (by decide) (by decide)
    (by rw [show countCalculationDays (civilDay 2024 1 1) surchargePlan.endDate
          surchargePlan.exclusions = 10 from by decide]
        norm_num [surchargePlan, basePlan])).1

/-- C9: `countCalculationDays` equals the spec's description — the number of
days `d` with `start ≤ d ≤ end` whose weekday is Monday–Friday and which lie in
no exclusion range — and returns 0 when `start > end`; in particular
2024-01-01 (Mon) to 2024-01-05 (Fri) gives 5, and 4 once 2024-01-03 (Wed) is
excluded. -/
theorem C9_count_qualifying_days (start «end» : Nat) (exclusions : List Range) :
    countCalculationDays start «end» exclusions
      = countQualifyingDaysSpec start «end» exclusions
    ∧ («end» < start → countCalculationDays start «end» exclusions = 0)
    ∧ countCalculationDays (civilDay 2024 1 1) (civilDay 2024 1 5) [] = 5
    ∧ countCalculationDays (civilDay 2024 1 1) (civilDay 2024 1 5)
        [⟨civilDay 2024 1 3, civilDay 2024 1 3⟩] = 4 := by
  refine ⟨countCalculationDays_eq_spec start «end» exclusions, ?_, by decide, by decide⟩
  intro hlt
  unfold countCalculationDays countDaysFrom
  rw [show «end» + 1 - start = 0 by omega]
  rfl

/-- Witness for C9: the empty-range case at a concrete reversed pair of dates. -/
theorem C9_count_witness : countCalculationDays 19724 19723 [] = 0 :=
  (C9_count_qualifying_days 19724 19723 []).2.1 (by decide)

/-- C10: starting a day on a plan whose day is already active unconditionally
overwrites the open day — `dailySpent` is reset to 0, `dailyAllowance` and
`dailySavingsGoal` are replaced — while `totalSaved`, `totalSpent`,
`penaltyDebt` and the plan's history are unchanged (and replacing a plan inside
a document touches neither the document history nor `totalSavings`): the
in-progress day is discarded with no rollover accounting. -/
theorem C10_start_day_overwrites (plan : Plan) (allowance manualInput : ℚ)
    (today : Nat) (h : plan.dayActive = true) :
    (startDay plan allowance manualInput today).dayActive = true
    ∧ (startDay plan allowance manualInput today).dailySpent = 0
    ∧ (startDay plan allowance manualInput today).dailyAllowance = allowance
    ∧ (startDay plan allowance manualInput today).dailySavingsGoal
        = (if plan.manualSavingsMode = true then manualInput
           else if plan.estimateMode = true then
             calculateRequiredDaily plan allowance today
           else 0)
    ∧ (startDay plan allowance manualInput today).totalSaved = plan.totalSaved
    ∧ (startDay plan allowance manualInput today).totalSpent = plan.totalSpent
    ∧ (startDay plan allowance manualInput today).penaltyDebt = plan.penaltyDebt
    ∧ (startDay plan allowance manualInput today).history = plan.history
    ∧ (∀ (s : DocState) (i : Nat) (p : Plan),
        ({ s with plans := s.plans.set i p } : DocState).history = s.history
        ∧ ({ s with plans := s.plans.set i p } : DocState).totalSavings
            = s.totalSavings) := by
  refine ⟨rfl, rfl, rfl, ?_, rfl, rfl, rfl, rfl, fun s i p => ⟨rfl, rfl⟩⟩
  unfold startDay
  split_ifs <;> rfl

/-- Witness for C10: the frame conditions at the concrete open-day plan. -/
theorem C10_start_day_witness :
    (startDay closeExamplePlan 50 20 0).totalSaved = closeExamplePlan.totalSaved
      ∧ (startDay closeExamplePlan 50 20 0).dailySpent = 0 :=
  ⟨(C10_start_day_overwrites closeExamplePlan 50 20 0 (by decide)).2.2.2.2.1,
   (C10_start_day_overwrites closeExamplePlan 50 20 0 (by decide)).2.1⟩

end SavingsTracker
